import Mathlib

/-!
Shallow embedding of the `checkup` HTTP endpoint checker
(package `http`: `Checker.Check`, `Checker.doChecks`, `Checker.conclude`,
`Checker.checkDown`, `DefaultHTTPClient`) and of the Application Insights
exporter's message construction (`appinsights.Exporter.Send`).

Go `time.Duration` is an `int64` count of nanoseconds; it is embedded as
`Int` (no arithmetic here ever overflows 64 bits in the claims considered).
External effects (file reads, the system certificate pool, PEM parsing,
URL validation by `http.NewRequest`, and the network outcome of each
attempt) are supplied by an explicit environment `Env`.
-/

namespace Checkup

/-- Go `time.Duration`: a signed count of nanoseconds. -/
abbrev Duration := Int

/-- One nanosecond-denominated second, as in Go `time.Second`. -/
def second : Duration := 1000000000

/-- `types.Attempt`: one probe attempt — round-trip time and an optional
failure description (empty string means the attempt succeeded). -/
structure Attempt where
  rtt : Duration := 0
  error : String := ""
deriving DecidableEq

/-- Modelled from the spec: `types.Stats` (the `types` package is not under
`src/`); only the median is relevant to the verdict logic. -/
structure Stats where
  median : Duration := 0
deriving DecidableEq

/-- `types.Result`: the aggregated verdict for one check invocation. -/
structure Result where
  title : String := ""
  endpoint : String := ""
  times : List Attempt := []
  thresholdRTT : Duration := 0
  stats : Stats := {}
  healthy : Bool := false
  degraded : Bool := false
  down : Bool := false
  notice : String := ""
deriving DecidableEq

/-- Modelled from the spec: `types.NewResult` (not under `src/`) returns a
fresh verdict with all health flags unset and no notice; `Check` then fills
`Title`, `Endpoint` and `Times`. -/
def freshResult (title endpoint : String) (times : List Attempt) : Result :=
  { title := title, endpoint := endpoint, times := times }

/-- Insert into a `≤`-sorted list of durations, keeping it sorted. -/
def insertSorted (x : Duration) : List Duration → List Duration
  | [] => [x]
  | y :: t => if x ≤ y then x :: y :: t else y :: insertSorted x t

/-- Sort a list of durations (insertion sort). -/
def sortDurations (l : List Duration) : List Duration :=
  l.foldr insertSorted []

/-- Modelled from the spec: the median of recorded durations ("simple
numeric median"; the spec leaves even-count tie-breaking open — the average
of the two middle samples is chosen here). Zero on an empty sample set. -/
def medianOf (l : List Duration) : Duration :=
  let s := sortDurations l
  if s.length = 0 then 0
  else if s.length % 2 = 1 then s.getD (s.length / 2) 0
  else (s.getD (s.length / 2 - 1) 0 + s.getD (s.length / 2) 0) / 2

/-- Median round-trip time of a list of attempts. -/
def medianRTT (times : List Attempt) : Duration :=
  medianOf (times.map (fun t => t.rtt))

/-- Modelled from the spec: `types.Result.ComputeStats` (not under `src/`)
computes summary statistics — at least the median — from `result.Times`. -/
def computeStats (r : Result) : Stats :=
  { median := medianRTT r.times }

/-- Modelled from the spec: a stand-in for Go's `%s` formatting of a
`time.Duration` (standard library, not under `src/`); renders the raw
nanosecond count. The claims depend only on the threshold value being
embedded in the notice, not on the unit formatting. -/
def durationString (d : Duration) : String :=
  toString d ++ "ns"

/-- Does `needle` occur as a leading run of `hay`? (Go `strings.HasPrefix`
on the character lists; used to embed `strings.Contains`.) -/
def startsWith : List Char → List Char → Bool
  | [], _ => true
  | _ :: _, [] => false
  | a :: as, b :: bs => a == b && startsWith as bs

/-- Embeds Go `strings.Contains hay needle`. -/
def containsSub (needle : List Char) : List Char → Bool
  | [] => startsWith needle []
  | c :: t => startsWith needle (c :: t) || containsSub needle t

/-- Embeds Go `strings.Contains s sub`. -/
def strContains (s sub : String) : Bool :=
  containsSub sub.data s.data

/-- Reading the response body may fail (Go `ioutil.ReadAll`). -/
inductive BodyRead where
  | ok (s : String)
  | err (e : String)
deriving DecidableEq

/-- The visible fields of an `http.Response`: status code, status text, and
the result of reading the body. -/
structure HTTPResponse where
  statusCode : Int := 200
  status : String := "200 OK"
  body : BodyRead := .ok ""
deriving DecidableEq

/-- The transport-level outcome of a single `Client.Do`: a response, or a
transport error description. -/
inductive TransportOutcome where
  | resp (r : HTTPResponse)
  | err (e : String)
deriving DecidableEq

/-- Whether the transport returned a response (no transport-level error). -/
def TransportOutcome.isResp : TransportOutcome → Bool
  | .resp _ => true
  | .err _ => false

/-- What the environment delivers for one attempt: the elapsed round-trip
time measured around `Client.Do`, and the transport-level outcome. -/
structure AttemptOutcome where
  rttNS : Duration := 0
  outcome : TransportOutcome := .resp {}

/-- TLS client configuration (`crypto/tls.Config`): the two fields the
checker sets. The trust pool is embedded as the list of its certificates. -/
structure TLSConfig where
  insecureSkipVerify : Bool := false
  rootCAs : Option (List String) := none
deriving DecidableEq

/-- The custom TLS dial function installed by `Check`, embedded as the data
its closure captures: the target URL it parses, the fixed 5s connect
timeout, and the assembled TLS configuration it handshakes with. -/
structure TLSDialer where
  url : String
  timeoutNS : Duration
  tlsConfig : TLSConfig
deriving DecidableEq

/-- `http.Transport`, restricted to the fields `DefaultHTTPClient` sets
plus the `DialTLS` hook `Check` installs. `Clone` is a field-wise copy. -/
structure Transport where
  proxyFromEnvironment : Bool := true
  dialTimeoutNS : Duration := 10 * second
  dialKeepAliveNS : Duration := 0
  tlsHandshakeTimeoutNS : Duration := 5 * second
  expectContinueTimeoutNS : Duration := 1 * second
  maxIdleConnsPerHost : Int := 1
  disableCompression : Bool := true
  disableKeepAlives : Bool := true
  responseHeaderTimeoutNS : Duration := 5 * second
  dialTLS : Option TLSDialer := none
deriving DecidableEq

/-- `http.Client`, restricted to the fields `DefaultHTTPClient` sets. -/
structure HTTPClient where
  transport : Transport := {}
  redirectUseLastResponse : Bool := true
  timeoutNS : Duration := 10 * second
deriving DecidableEq

/-- The package-level `DefaultHTTPClient` value as declared in the source:
default pooling/timeout policy, no keep-alive, no compression, redirects
treated as terminal, and no `DialTLS` hook installed. -/
def DefaultHTTPClient : HTTPClient := {}

/-- The process-wide mutable state: the object the package-level
`DefaultHTTPClient` pointer refers to. `Check` aliases this object when no
caller-supplied client is present, so writing through the alias mutates it. -/
structure Global where
  defaultClient : HTTPClient := {}
deriving DecidableEq

/-- The outbound `http.Request` as the checker builds it: method, target
URL, the `Host` override field (empty in Go, embedded as `none` when
unset), and the header mapping. The mapping is embedded as an ordered list
of (canonicalised key, comma-joined value) pairs; Go merges duplicate
canonical keys into one multi-valued entry, which no claim depends on. -/
structure Request where
  method : String := "GET"
  url : String := ""
  host : Option String := none
  header : List (String × String) := []
deriving DecidableEq

/-- `http.Checker` (the JSON-configured endpoint checker). -/
structure Checker where
  name : String := ""
  url : String := ""
  upStatus : Int := 0
  thresholdRTT : Duration := 0
  mustContain : String := ""
  mustNotContain : String := ""
  attempts : Int := 0
  attemptSpacing : Duration := 0
  tlsSkipVerify : Bool := false
  tlsCAFile : String := ""
  client : Option HTTPClient := none
  headers : Option (List (String × List String)) := none
deriving DecidableEq

/-- `Checker.checkDown`: classify one response; `none` means the attempt
passes, `some e` is the failure description. Mirrors the source order:
status code first, then (only if a content rule is set) body read and the
required/forbidden substring rules. -/
def checkDown (c : Checker) (resp : HTTPResponse) : Option String :=
  if resp.statusCode ≠ c.upStatus then
    some ("response status " ++ resp.status)
  else if c.mustContain = "" && c.mustNotContain = "" then
    none
  else
    match resp.body with
    | .err e => some ("reading response body: " ++ e)
    | .ok body =>
      if c.mustContain ≠ "" && !strContains body c.mustContain then
        some ("response does not contain \x27" ++ c.mustContain ++ "\x27")
      else if c.mustNotContain ≠ "" && strContains body c.mustNotContain then
        some ("response contains \x27" ++ c.mustNotContain ++ "\x27")
      else
        none

/-- `Checker.conclude`: fill in the threshold, then classify. Down on the
first attempt with a non-empty failure description; otherwise, when a
threshold is configured, compute stats and go degraded when the median
strictly exceeds the threshold; healthy otherwise. -/
def conclude (c : Checker) (result : Result) : Result :=
  let result := { result with thresholdRTT := c.thresholdRTT }
  if result.times.any (fun t => t.error ≠ "") then
    { result with down := true }
  else if 0 < c.thresholdRTT then
    let result := { result with stats := computeStats result }
    if c.thresholdRTT < result.stats.median then
      { result with
          notice := "median round trip time exceeded threshold ("
            ++ durationString c.thresholdRTT ++ ")",
          degraded := true }
    else
      { result with healthy := true }
  else
    { result with healthy := true }

/-- Valid HTTP token characters, as in Go `net/textproto`. Digits, letters,
and the punctuation of the token table (char codes 33 `!`, 35 `#`, 36, 37,
38, 39, 42 `*`, 43 `+`, 45 `-`, 46 `.`, 94, 95, 96, 124, 126). -/
def isTokenChar (ch : Char) : Bool :=
  let n := ch.toNat
  (48 ≤ n && n ≤ 57) || (65 ≤ n && n ≤ 90) || (97 ≤ n && n ≤ 122) ||
    [33, 35, 36, 37, 38, 39, 42, 43, 45, 46, 94, 95, 96, 124, 126].contains n

/-- Case-canonicalise a header key: uppercase the first letter and each
letter following a hyphen, lowercase the rest (Go `textproto`). The flag is
whether the current character should be uppercased. -/
def canonicalizeChars : Bool → List Char → List Char
  | _, [] => []
  | upper, ch :: t =>
    (if upper then ch.toUpper else ch.toLower) :: canonicalizeChars (ch == '-') t

/-- Go `textproto.CanonicalMIMEHeaderKey`, as invoked by `Header.Add`: a
key containing a non-token character is returned unchanged, otherwise it is
case-canonicalised. -/
def canonicalMIMEHeaderKey (s : String) : String :=
  if s.data.all isTokenChar then String.mk (canonicalizeChars true s.data) else s

/-- Go `strings.Join values ", "` as used when adding a header. -/
def joinComma (vs : List String) : String :=
  String.intercalate ", " vs

/-- Go `strings.ToLower`, character-wise (header keys are ASCII). -/
def strToLower (s : String) : String :=
  String.mk (s.data.map Char.toLower)

/-- One iteration of the header loop in `Check`: the header is added to the
request's header mapping unconditionally; when the key lowercases to
"host", the request's `Host` override is additionally set to the first
value — indexing `values[0]` panics (`none`) on an empty value list. -/
def applyHeader (req : Request) (key : String) (values : List String) :
    Option Request :=
  let req :=
    { req with header := req.header ++ [(canonicalMIMEHeaderKey key, joinComma values)] }
  if strToLower key = "host" then
    match values with
    | [] => none
    | v :: _ => some { req with host := some v }
  else
    some req

/-- The header loop of `Check` over all configured headers. Go map
iteration order is unspecified; the embedding fixes the list order, which
no claim depends on. -/
def applyHeaders (hs : List (String × List String)) (req : Request) :
    Option Request :=
  hs.foldlM (fun r kv => applyHeader r kv.1 kv.2) req

/-- The configuration errors `Check` can return: the two package-level
error values, plus the error `http.NewRequest` returns on a malformed
target URL. -/
inductive CheckError where
  | readingRootCert
  | parsingRootCert
  | requestURL
deriving DecidableEq

/-- The external world of one invocation: file reads (`none` = read
error — Go's `ReadFile` returns `nil` data exactly when it errors, so an
empty file is `some ""`), the system certificate pool (`none` = no system
store), PEM parsing (the certificates that parse out of given PEM bytes;
empty = `AppendCertsFromPEM` returns `false`), URL validity as judged by
`http.NewRequest`, and the transport outcome of each attempt by index. -/
structure Env where
  readFile : String → Option String
  systemCertPool : Option (List String)
  pemCerts : String → List String
  validURL : String → Bool
  outcomes : Nat → AttemptOutcome

/-- The TLS-configuration part of the client-setup block of `Check`: start
from the skip-verify flag; when a CA file path is set, read it (failing
with `errReadingRootCert` exactly when `ReadFile` errors — Go's `ReadFile`
returns `nil` data only on error, so an empty file passes this test), and
append the certificates that parse out of it to a pool seeded from the
system trust store (or an empty pool), failing with `errParsingRootCert`
when none parse. -/
def caTLSConfig (env : Env) (c : Checker) : Except CheckError TLSConfig :=
  if c.tlsCAFile ≠ "" then
    match env.readFile c.tlsCAFile with
    | none => .error .readingRootCert
    | some pem =>
      if (env.pemCerts pem).isEmpty then .error .parsingRootCert
      else
        .ok { insecureSkipVerify := c.tlsSkipVerify,
              rootCAs := some (env.systemCertPool.getD [] ++ env.pemCerts pem) }
  else
    .ok { insecureSkipVerify := c.tlsSkipVerify }

/-- Lines 153–155 of the source: clone the default client's transport, set
the custom TLS dial function on the clone, and write the clone back through
the alias — mutating the object `DefaultHTTPClient` points at. -/
def installDialer (g : Global) (url : String) (tc : TLSConfig) : Global :=
  { defaultClient :=
      { g.defaultClient with
        transport :=
          { g.defaultClient.transport with
            dialTLS := some { url := url, timeoutNS := 5 * second, tlsConfig := tc } } } }

/-- The client-setup block of `Check` (lines guarded by `c.Client == nil`):
build the TLS configuration, then install a cloned transport carrying the
custom TLS dialer into the shared default client, and use that client. A
caller-supplied client short-circuits the whole block. Returns the updated
process-wide state and the client to use. -/
def clientSetup (env : Env) (g : Global) (c : Checker) :
    Except CheckError (Global × HTTPClient) :=
  match c.client with
  | some cl => .ok (g, cl)
  | none =>
    match caTLSConfig env c with
    | .error e => .error e
    | .ok tc =>
      let g2 := installDialer g c.url tc
      .ok (g2, g2.defaultClient)

/-- One iteration of the loop in `Checker.doChecks`: the attempt record,
and whether a sleep of `AttemptSpacing` followed this attempt. A
transport-level error `continue`s past the sleep; a delivered response
(whatever its classification) reaches the sleep whenever the spacing is
positive. -/
def attemptStep (c : Checker) (o : AttemptOutcome) : Attempt × Bool :=
  match o.outcome with
  | .err e => (⟨o.rttNS, e⟩, false)
  | .resp r =>
    (⟨o.rttNS, (checkDown c r).getD ""⟩, decide (0 < c.attemptSpacing))

/-- `Checker.doChecks`: exactly `c.Attempts` sequential attempts, each
producing one attempt record (and a sleep flag), in execution order. -/
def doChecks (c : Checker) (env : Env) : List (Attempt × Bool) :=
  (List.range c.attempts.toNat).map (fun i => attemptStep c (env.outcomes i))

/-- Everything observable about one `Check` invocation: the process-wide
state after the call, the returned result, the returned error, the
outbound request as built (absent when never built), the per-attempt sleep
flags, and whether the invocation panicked (`values[0]` on an empty host
header value list). -/
structure CheckOut where
  global : Global
  result : Result
  err : Option CheckError := none
  request : Option Request := none
  sleeps : List Bool := []
  panicked : Bool := false

/-- The attempt-count default at the top of `Check`: fewer than one attempt
configured means one attempt. -/
def normAttempts (c : Checker) : Checker :=
  if c.attempts < 1 then { c with attempts := 1 } else c

/-- The expected-status default in `Check`: zero means `http.StatusOK`. -/
def normStatus (c : Checker) : Checker :=
  if c.upStatus = (0 : Int) then { c with upStatus := (200 : Int) } else c

/-- `http.NewRequest("GET", c.URL, nil)` followed by the header loop of
`Check` (the loop runs only when headers are configured). -/
def buildRequest (c : Checker) : Option Request :=
  match c.headers with
  | some hs => applyHeaders hs { method := "GET", url := c.url }
  | none => some { method := "GET", url := c.url }

/-- The tail of `Check` after client setup, for the normalised checker
`c2`: build the request (aborting with the `http.NewRequest` error on a
malformed URL), apply the header loop, run the attempts, and conclude. -/
def checkRun (env : Env) (g2 : Global) (c2 : Checker) : CheckOut :=
  if env.validURL c2.url then
    match buildRequest c2 with
    | none =>
      { global := g2, result := freshResult c2.name c2.url [], panicked := true }
    | some req =>
      let steps := doChecks c2 env
      { global := g2,
        result := conclude c2 (freshResult c2.name c2.url (steps.map Prod.fst)),
        request := some req,
        sleeps := steps.map Prod.snd }
  else
    { global := g2, result := freshResult c2.name c2.url [], err := some .requestURL }

/-- `Checker.Check`, in source order: normalise the attempt count, run
client setup when no caller-supplied client is present (aborting on CA
configuration errors, before any transport mutation), default the expected
status, then build the request, apply the header loop, run the attempts,
and conclude. -/
def check (env : Env) (g : Global) (c : Checker) : CheckOut :=
  match clientSetup env g (normAttempts c) with
  | .error e =>
    { global := g,
      result := freshResult (normAttempts c).name (normAttempts c).url [],
      err := some e }
  | .ok (g2, client) =>
    checkRun env g2 (normStatus { normAttempts c with client := some client })

/-- `appinsights.Exporter.Send`, message construction only: start from the
verdict's notice; for a degraded or down verdict, append the attempt count
and the space-joined per-attempt round-trip times. -/
def sendMessage (r : Result) : String :=
  if r.degraded || r.down then
    r.notice ++ " - Number of attempts = " ++ toString r.times.length
      ++ " (" ++ String.intercalate " " (r.times.map (fun t => durationString t.rtt)) ++ ")"
  else
    r.notice

/-! Concrete values used to instantiate the theorems below. -/

/-- The initial process-wide state: `DefaultHTTPClient` as declared. -/
def g0 : Global := {}

/-- An environment where everything works: files read as a fixed PEM blob
that parses into one certificate, a one-certificate system store, every URL
is valid, and every attempt yields a 200 response in 5ns. -/
def envBasic : Env where
  readFile := fun _ => some "PEMDATA"
  systemCertPool := some ["syscert"]
  pemCerts := fun pem => if pem = "" then [] else ["cert:" ++ pem]
  validURL := fun _ => true
  outcomes := fun _ => { rttNS := 5, outcome := .resp {} }

/-- `envBasic`, but every URL is rejected by `http.NewRequest`. -/
def envBadURL : Env :=
  { envBasic with validURL := fun _ => false }

/-- `envBasic`, but every file read fails. -/
def envNoFile : Env :=
  { envBasic with readFile := fun _ => none }

/-- `envBasic`, but every file reads as empty (zero PEM blocks). -/
def envEmptyFile : Env :=
  { envBasic with readFile := fun _ => some "" }

/-- A plain three-attempt checker with no TLS material and no headers. -/
def cPlain : Checker :=
  { name := "plain", url := "http://example.com", attempts := 3 }

/-- A checker with a custom CA file and no caller-supplied client. -/
def cCA : Checker :=
  { name := "ca", url := "https://example.com", tlsCAFile := "ca.pem" }

/-- A one-attempt checker with positive attempt spacing and a
caller-supplied client. -/
def cSleep : Checker :=
  { name := "sleep", url := "http://example.com", attempts := 1,
    attemptSpacing := 5, client := some {} }

/-- A checker configuring a "Host" header, with a caller-supplied client. -/
def cHost : Checker :=
  { name := "host", url := "http://example.com", client := some {},
    headers := some [("Host", ["example.com"])] }

/-- A checker with a 10ns latency threshold. -/
def cThresh : Checker :=
  { name := "thresh", url := "http://example.com", thresholdRTT := 10 }

/-- One failed attempt record. -/
def attemptsFail : List Attempt := [{ rtt := 5, error := "connection refused" }]

/-- One successful attempt record with a 50ns round-trip time. -/
def attemptsOK50 : List Attempt := [{ rtt := 50, error := "" }]

/-! ## Lemmas -/

lemma freshResult_times (a b : String) (ts : List Attempt) :
    (freshResult a b ts).times = ts := rfl

lemma freshResult_flags (a b : String) (ts : List Attempt) :
    (freshResult a b ts).healthy = false ∧ (freshResult a b ts).degraded = false
      ∧ (freshResult a b ts).down = false ∧ (freshResult a b ts).notice = "" :=
  ⟨rfl, rfl, rfl, rfl⟩

/-- Branch-level unfolding of `conclude`. -/
lemma conclude_eq (c : Checker) (r : Result) :
    conclude c r =
      if r.times.any (fun t => t.error ≠ "") then
        { r with thresholdRTT := c.thresholdRTT, down := true }
      else if 0 < c.thresholdRTT then
        if c.thresholdRTT < medianRTT r.times then
          { r with
            thresholdRTT := c.thresholdRTT
            stats := { median := medianRTT r.times }
            notice := "median round trip time exceeded threshold ("
              ++ durationString c.thresholdRTT ++ ")"
            degraded := true }
        else
          { r with
            thresholdRTT := c.thresholdRTT
            stats := { median := medianRTT r.times }
            healthy := true }
      else
        { r with thresholdRTT := c.thresholdRTT, healthy := true } := rfl

lemma conclude_preserves_times (c : Checker) (r : Result) :
    (conclude c r).times = r.times := by
  rw [conclude_eq]
  split
  · rfl
  · split
    · split <;> rfl
    · rfl

lemma normAttempts_name (c : Checker) : (normAttempts c).name = c.name := by
  unfold normAttempts; split <;> rfl

lemma normAttempts_url (c : Checker) : (normAttempts c).url = c.url := by
  unfold normAttempts; split <;> rfl

lemma normAttempts_client (c : Checker) : (normAttempts c).client = c.client := by
  unfold normAttempts; split <;> rfl

lemma normAttempts_headers (c : Checker) : (normAttempts c).headers = c.headers := by
  unfold normAttempts; split <;> rfl

lemma normAttempts_spacing (c : Checker) :
    (normAttempts c).attemptSpacing = c.attemptSpacing := by
  unfold normAttempts; split <;> rfl

lemma normAttempts_attempts (c : Checker) :
    (normAttempts c).attempts = if c.attempts < 1 then 1 else c.attempts := by
  by_cases h : c.attempts < 1 <;> simp [normAttempts, h]

lemma normStatus_name (c : Checker) : (normStatus c).name = c.name := by
  unfold normStatus; split <;> rfl

lemma normStatus_url (c : Checker) : (normStatus c).url = c.url := by
  unfold normStatus; split <;> rfl

lemma normStatus_headers (c : Checker) : (normStatus c).headers = c.headers := by
  unfold normStatus; split <;> rfl

lemma normStatus_attempts (c : Checker) : (normStatus c).attempts = c.attempts := by
  unfold normStatus; split <;> rfl

lemma normStatus_spacing (c : Checker) :
    (normStatus c).attemptSpacing = c.attemptSpacing := by
  unfold normStatus; split <;> rfl

lemma doChecks_length (c : Checker) (env : Env) :
    (doChecks c env).length = c.attempts.toNat := by
  simp [doChecks]

lemma caTLSConfig_normAttempts (env : Env) (c : Checker) :
    caTLSConfig env (normAttempts c) = caTLSConfig env c := by
  unfold normAttempts; split <;> rfl

lemma clientSetup_of_some {env : Env} {g : Global} {c : Checker} {cl : HTTPClient}
    (h : c.client = some cl) : clientSetup env g c = .ok (g, cl) := by
  unfold clientSetup; rw [h]

lemma clientSetup_none_error {env : Env} {g : Global} {c : Checker} {e : CheckError}
    (h : c.client = none) (hca : caTLSConfig env c = .error e) :
    clientSetup env g c = .error e := by
  unfold clientSetup; rw [h, hca]

lemma clientSetup_none_ok {env : Env} {g : Global} {c : Checker} {tc : TLSConfig}
    (h : c.client = none) (hca : caTLSConfig env c = .ok tc) :
    clientSetup env g c
      = .ok (installDialer g c.url tc, (installDialer g c.url tc).defaultClient) := by
  unfold clientSetup; rw [h, hca]

lemma caTLSConfig_noFile {env : Env} {c : Checker} (hca : c.tlsCAFile ≠ "")
    (h : env.readFile c.tlsCAFile = none) :
    caTLSConfig env c = .error .readingRootCert := by
  unfold caTLSConfig; rw [if_pos hca, h]

lemma caTLSConfig_noParse {env : Env} {c : Checker} {pem : String}
    (hca : c.tlsCAFile ≠ "") (h : env.readFile c.tlsCAFile = some pem)
    (hp : env.pemCerts pem = []) :
    caTLSConfig env c = .error .parsingRootCert := by
  unfold caTLSConfig
  rw [if_pos hca, h]
  dsimp only
  rw [hp]
  rfl

lemma caTLSConfig_parses {env : Env} {c : Checker} {pem : String}
    (hca : c.tlsCAFile ≠ "") (h : env.readFile c.tlsCAFile = some pem)
    (hp : env.pemCerts pem ≠ []) :
    caTLSConfig env c
      = .ok { insecureSkipVerify := c.tlsSkipVerify,
              rootCAs := some (env.systemCertPool.getD [] ++ env.pemCerts pem) } := by
  have hfalse : (env.pemCerts pem).isEmpty = false := by
    cases hq : env.pemCerts pem with
    | nil => exact absurd hq hp
    | cons a t => rfl
  unfold caTLSConfig
  rw [if_pos hca, h]
  dsimp only
  rw [if_neg (by simp [hfalse])]

lemma check_error {env : Env} {g : Global} {c : Checker} {e : CheckError}
    (h : clientSetup env g (normAttempts c) = .error e) :
    check env g c = { global := g, result := freshResult c.name c.url [], err := some e } := by
  unfold check
  rw [h]
  simp [normAttempts_name, normAttempts_url]

lemma check_ok {env : Env} {g : Global} {c : Checker} {g2 : Global} {client : HTTPClient}
    (h : clientSetup env g (normAttempts c) = .ok (g2, client)) :
    check env g c = checkRun env g2 (normStatus { normAttempts c with client := some client }) := by
  unfold check
  rw [h]

lemma checkRun_global (env : Env) (g2 : Global) (c2 : Checker) :
    (checkRun env g2 c2).global = g2 := by
  unfold checkRun
  split
  · split <;> rfl
  · rfl

lemma checkRun_badURL {env : Env} {g2 : Global} {c2 : Checker}
    (h : env.validURL c2.url = false) :
    checkRun env g2 c2
      = { global := g2, result := freshResult c2.name c2.url [], err := some .requestURL } := by
  unfold checkRun
  rw [if_neg (by simp [h])]

lemma checkRun_ok {env : Env} {g2 : Global} {c2 : Checker} {req : Request}
    (hv : env.validURL c2.url = true) (hb : buildRequest c2 = some req) :
    checkRun env g2 c2
      = { global := g2,
          result := conclude c2 (freshResult c2.name c2.url ((doChecks c2 env).map Prod.fst)),
          request := some req,
          sleeps := (doChecks c2 env).map Prod.snd } := by
  unfold checkRun
  rw [if_pos hv, hb]

/-! ## Claims -/

/-- C1: for every attempt-record sequence handed to `conclude` (on the
fresh result `Check` builds), the verdict's down flag is set iff some
attempt has a non-empty failure description; and when one has, the output
is exactly the input with only the threshold carried over and `down` set —
so the latency/median check is never evaluated (no stats, no notice, never
degraded). -/
theorem conclude_down_iff_any_failure (c : Checker) (title endpoint : String)
    (times : List Attempt) :
    ((conclude c (freshResult title endpoint times)).down = true ↔
      ∃ t ∈ times, t.error ≠ "")
    ∧ ((∃ t ∈ times, t.error ≠ "") →
      conclude c (freshResult title endpoint times)
        = { freshResult title endpoint times with
            thresholdRTT := c.thresholdRTT, down := true }) := by
  have hiff : (times.any (fun t => t.error ≠ "")) = true ↔ ∃ t ∈ times, t.error ≠ "" := by
    simp [List.any_eq_true]
  by_cases h : times.any (fun t => t.error ≠ "") = true
  · have hE := hiff.mp h
    refine ⟨?_, fun _ => ?_⟩
    · rw [conclude_eq]
      simp only [freshResult_times]
      rw [if_pos h]
      exact iff_of_true rfl hE
    · rw [conclude_eq]
      simp only [freshResult_times]
      rw [if_pos h]
  · have hne : ¬ ∃ t ∈ times, t.error ≠ "" := fun hE => h (hiff.mpr hE)
    refine ⟨?_, fun hE => absurd hE hne⟩
    rw [conclude_eq]
    simp only [freshResult_times]
    rw [if_neg h]
    split
    · split <;> exact iff_of_false (fun hc => Bool.false_ne_true hc) hne
    · exact iff_of_false (fun hc => Bool.false_ne_true hc) hne

/-- C1 witness: a single failed attempt makes the verdict down and leaves
everything but the threshold and the down flag untouched. -/
theorem conclude_down_iff_any_failure_witness :
    (conclude cThresh (freshResult "a" "b" attemptsFail)).down = true ∧
      conclude cThresh (freshResult "a" "b" attemptsFail)
        = { freshResult "a" "b" attemptsFail with
            thresholdRTT := cThresh.thresholdRTT, down := true } := by
  have h := conclude_down_iff_any_failure cThresh "a" "b" attemptsFail
  have hE : ∃ t ∈ attemptsFail, t.error ≠ "" := by
    refine ⟨{ rtt := 5, error := "connection refused" }, ?_, ?_⟩ <;> decide
  exact ⟨h.1.mpr hE, h.2 hE⟩

/-- C3: every verdict `conclude` produces (on the fresh result `Check`
builds) has exactly one of the three health flags set. -/
theorem conclude_flags_exclusive (c : Checker) (title endpoint : String)
    (times : List Attempt) :
    (conclude c (freshResult title endpoint times)).healthy.toNat
      + (conclude c (freshResult title endpoint times)).degraded.toNat
      + (conclude c (freshResult title endpoint times)).down.toNat = 1 := by
  rw [conclude_eq]
  split
  · rfl
  · split
    · split <;> rfl
    · rfl

/-- C2: when no attempt failed, the verdict is degraded iff a positive
latency threshold is configured and the median round-trip time strictly
exceeds it (equality yields healthy); otherwise the verdict is healthy, and
a degraded verdict's notice names the configured threshold value. -/
theorem conclude_degraded_iff_median (c : Checker) (title endpoint : String)
    (times : List Attempt) (hok : ∀ t ∈ times, t.error = "") :
    ((conclude c (freshResult title endpoint times)).degraded = true ↔
      0 < c.thresholdRTT ∧ c.thresholdRTT < medianRTT times)
    ∧ ((conclude c (freshResult title endpoint times)).degraded = false →
      (conclude c (freshResult title endpoint times)).healthy = true)
    ∧ ((conclude c (freshResult title endpoint times)).degraded = true →
      (conclude c (freshResult title endpoint times)).notice
        = "median round trip time exceeded threshold ("
          ++ durationString c.thresholdRTT ++ ")") := by
  have hcond : ¬ (times.any (fun t => t.error ≠ "") = true) := by
    simp only [List.any_eq_true, not_exists]
    intro t ht
    exact absurd (hok t ht.1) (by simpa using ht.2)
  rw [conclude_eq]
  simp only [freshResult_times]
  rw [if_neg hcond]
  by_cases h2 : 0 < c.thresholdRTT
  · rw [if_pos h2]
    by_cases h3 : c.thresholdRTT < medianRTT times
    · rw [if_pos h3]
      exact ⟨iff_of_true rfl ⟨h2, h3⟩, fun hd => Bool.noConfusion hd, fun _ => rfl⟩
    · rw [if_neg h3]
      exact ⟨iff_of_false (fun hc => Bool.false_ne_true hc) (fun hp => h3 hp.2),
        fun _ => rfl, fun hd => Bool.noConfusion hd⟩
  · rw [if_neg h2]
    exact ⟨iff_of_false (fun hc => Bool.false_ne_true hc) (fun hp => h2 hp.1),
      fun _ => rfl, fun hd => Bool.noConfusion hd⟩

/-- C2 witness: one clean 50ns attempt against a 10ns threshold is
degraded, with the notice naming the threshold. -/
theorem conclude_degraded_iff_median_witness :
    (conclude cThresh (freshResult "a" "b" attemptsOK50)).degraded = true ∧
      (conclude cThresh (freshResult "a" "b" attemptsOK50)).notice
        = "median round trip time exceeded threshold (10ns)" := by
  have h := conclude_degraded_iff_median cThresh "a" "b" attemptsOK50 (by decide)
  have hd : (conclude cThresh (freshResult "a" "b" attemptsOK50)).degraded = true :=
    h.1.mpr ⟨by decide, by decide⟩
  refine ⟨hd, ?_⟩
  rw [h.2.2 hd]
  decide

/-- Splitting a fixed message around the "Number of attempts = " literal. -/
lemma append_shuffle (s n j : String) :
    s ++ " - Number of attempts = " ++ n ++ " (" ++ j ++ ")"
      = (s ++ " - ") ++ "Number of attempts = " ++ n ++ ((" (" ++ j) ++ ")") := by
  have h1 : (" - " : String) ++ "Number of attempts = " = " - Number of attempts = " := by
    decide
  conv_rhs => rw [String.append_assoc s " - " "Number of attempts = ", h1]
  simp [String.append_assoc]

/-- C9 (amended): a down verdict's notice is empty; a degraded verdict's
notice is the threshold message; the summary naming the attempt count (and
the per-attempt round-trip times) is what the Application Insights
exporter appends to its telemetry message for a down or degraded verdict —
it is not stored in the verdict's notice by `conclude`. -/
theorem conclude_notice_and_export (c : Checker) (title endpoint : String)
    (times : List Attempt) :
    ((conclude c (freshResult title endpoint times)).down = true →
      (conclude c (freshResult title endpoint times)).notice = "")
    ∧ ((conclude c (freshResult title endpoint times)).degraded = true →
      (conclude c (freshResult title endpoint times)).notice
        = "median round trip time exceeded threshold ("
          ++ durationString c.thresholdRTT ++ ")")
    ∧ (((conclude c (freshResult title endpoint times)).down = true
        ∨ (conclude c (freshResult title endpoint times)).degraded = true) →
      ∃ pre post, sendMessage (conclude c (freshResult title endpoint times))
        = pre ++ "Number of attempts = " ++ toString times.length ++ post) := by
  rw [conclude_eq]
  simp only [freshResult_times]
  split
  · refine ⟨fun _ => rfl, fun hd => Bool.noConfusion hd, fun _ => ?_⟩
    exact ⟨(freshResult title endpoint times).notice ++ " - ",
      (" (" ++ String.intercalate " " (times.map (fun t => durationString t.rtt))) ++ ")",
      append_shuffle _ _ _⟩
  · split
    · split
      · refine ⟨fun hd => Bool.noConfusion hd, fun _ => rfl, fun _ => ?_⟩
        exact ⟨("median round trip time exceeded threshold ("
            ++ durationString c.thresholdRTT ++ ")") ++ " - ",
          (" (" ++ String.intercalate " " (times.map (fun t => durationString t.rtt))) ++ ")",
          append_shuffle _ _ _⟩
      · exact ⟨fun hd => Bool.noConfusion hd, fun hd => Bool.noConfusion hd,
          fun hor => hor.elim (fun hd => Bool.noConfusion hd) (fun hd => Bool.noConfusion hd)⟩
    · exact ⟨fun hd => Bool.noConfusion hd, fun hd => Bool.noConfusion hd,
        fun hor => hor.elim (fun hd => Bool.noConfusion hd) (fun hd => Bool.noConfusion hd)⟩

/-- C4: whenever `Check` completes (no configuration error, no panic), the
verdict carries exactly `max 1 N` attempt records: `N` when the configured
attempt count is at least 1, and exactly one when it is unset or below 1 —
regardless of how the attempts fared. -/
theorem check_attempt_count (env : Env) (g : Global) (c : Checker)
    (herr : (check env g c).err = none)
    (hpanic : (check env g c).panicked = false) :
    (check env g c).result.times.length
      = if c.attempts < 1 then 1 else c.attempts.toNat := by
  cases hcs : clientSetup env g (normAttempts c) with
  | error e =>
    rw [check_error hcs] at herr
    exact absurd herr (by simp)
  | ok p =>
    obtain ⟨g2, client⟩ := p
    rw [check_ok hcs] at herr hpanic ⊢
    by_cases hv : env.validURL (normStatus { normAttempts c with client := some client }).url = true
    · cases hb : buildRequest (normStatus { normAttempts c with client := some client }) with
      | none =>
        unfold checkRun at hpanic
        rw [if_pos hv, hb] at hpanic
        exact absurd hpanic (by simp)
      | some req =>
        rw [checkRun_ok hv hb]
        show (conclude _ (freshResult _ _ _)).times.length = _
        rw [conclude_preserves_times, freshResult_times, List.length_map, doChecks_length,
          normStatus_attempts]
        show (normAttempts c).attempts.toNat = _
        rw [normAttempts_attempts]
        by_cases ha : c.attempts < 1 <;> simp [ha]
    · have hv2 : env.validURL (normStatus { normAttempts c with client := some client }).url = false := by
        revert hv
        cases env.validURL (normStatus { normAttempts c with client := some client }).url <;> simp
      rw [checkRun_badURL hv2] at herr
      exact absurd herr (by simp)

/-- C4 witness: a completed three-attempt invocation yields three attempt
records. -/
theorem check_attempt_count_witness :
    (check envBasic g0 cPlain).result.times.length = 3 := by
  have h := check_attempt_count envBasic g0 cPlain rfl rfl
  simpa using h

/-- C5: a target URL that `http.NewRequest` rejects makes `Check` abort
with a configuration error: some error is returned, no attempt record is
produced, no sleep happens, no request is built, and the returned result is
not a verdict (no health flag is set). -/
theorem check_malformed_url (env : Env) (g : Global) (c : Checker)
    (hurl : env.validURL c.url = false) :
    (check env g c).err.isSome = true
    ∧ (check env g c).result.times = []
    ∧ (check env g c).result.healthy = false
    ∧ (check env g c).result.degraded = false
    ∧ (check env g c).result.down = false
    ∧ (check env g c).sleeps = []
    ∧ (check env g c).request = none := by
  cases hcs : clientSetup env g (normAttempts c) with
  | error e =>
    rw [check_error hcs]
    exact ⟨rfl, rfl, rfl, rfl, rfl, rfl, rfl⟩
  | ok p =>
    obtain ⟨g2, client⟩ := p
    rw [check_ok hcs]
    have hv : env.validURL (normStatus { normAttempts c with client := some client }).url = false := by
      rw [normStatus_url]
      show env.validURL (normAttempts c).url = false
      rw [normAttempts_url]
      exact hurl
    rw [checkRun_badURL hv]
    exact ⟨rfl, rfl, rfl, rfl, rfl, rfl, rfl⟩

/-- C5 witness: with every URL rejected, the invocation aborts with a
configuration error and zero attempt records. -/
theorem check_malformed_url_witness :
    (check envBadURL g0 cPlain).err.isSome = true
    ∧ (check envBadURL g0 cPlain).result.times = [] := by
  have h := check_malformed_url envBadURL g0 cPlain rfl
  exact ⟨h.1, h.2.1⟩

/-- C6 counterexample: a readable but empty CA file does not produce the
read error — it falls through to PEM parsing (zero blocks parse) and
produces the same `errParsingRootCert` as unparseable material, not an
error distinct from it. -/
theorem empty_ca_file_parse_error :
    envEmptyFile.readFile cCA.tlsCAFile = some ""
    ∧ (check envEmptyFile g0 cCA).err = some CheckError.parsingRootCert
    ∧ (check envEmptyFile g0 cCA).err ≠ some CheckError.readingRootCert := by
  refine ⟨rfl, rfl, ?_⟩
  decide

/-- C6 (amended): with a CA file path set and no caller-supplied client,
an unreadable file aborts `Check` with `errReadingRootCert` and no
attempts; a readable file none of whose PEM blocks parse (in particular an
empty file) aborts with the distinct `errParsingRootCert` and no attempts;
and when some block parses, the trust pool behind the installed TLS dialer
is the system store (or the empty pool when none is available) plus the
parsed certificates. -/
theorem check_ca_material (env : Env) (g : Global) (c : Checker)
    (hcl : c.client = none) (hca : c.tlsCAFile ≠ "") :
    (env.readFile c.tlsCAFile = none →
      check env g c
        = { global := g, result := freshResult c.name c.url [],
            err := some .readingRootCert })
    ∧ (∀ pem, env.readFile c.tlsCAFile = some pem → env.pemCerts pem = [] →
      check env g c
        = { global := g, result := freshResult c.name c.url [],
            err := some .parsingRootCert })
    ∧ (∀ pem, env.readFile c.tlsCAFile = some pem → env.pemCerts pem ≠ [] →
      (check env g c).global.defaultClient.transport.dialTLS
        = some { url := c.url, timeoutNS := 5 * second,
                 tlsConfig := { insecureSkipVerify := c.tlsSkipVerify,
                                rootCAs := some (env.systemCertPool.getD []
                                  ++ env.pemCerts pem) } }) := by
  have hcl2 : (normAttempts c).client = none := by rw [normAttempts_client]; exact hcl
  have hca2 : (normAttempts c).tlsCAFile ≠ "" := by
    unfold normAttempts
    split <;> exact hca
  refine ⟨fun hread => ?_, fun pem hread hp => ?_, fun pem hread hp => ?_⟩
  · have hfile : env.readFile (normAttempts c).tlsCAFile = none := by
      unfold normAttempts
      split <;> exact hread
    exact check_error (clientSetup_none_error hcl2 (caTLSConfig_noFile hca2 hfile))
  · have hfile : env.readFile (normAttempts c).tlsCAFile = some pem := by
      unfold normAttempts
      split <;> exact hread
    exact check_error (clientSetup_none_error hcl2 (caTLSConfig_noParse hca2 hfile hp))
  · have hfile : env.readFile (normAttempts c).tlsCAFile = some pem := by
      unfold normAttempts
      split <;> exact hread
    have hskip : (normAttempts c).tlsSkipVerify = c.tlsSkipVerify := by
      unfold normAttempts
      split <;> rfl
    have hok := caTLSConfig_parses (c := normAttempts c) hca2 hfile hp
    rw [hskip] at hok
    rw [check_ok (clientSetup_none_ok hcl2 hok), checkRun_global]
    rw [normAttempts_url]
    rfl

/-- C6 witness: an unreadable CA file yields the read error; with parseable
CA material the dialer's pool is the system store plus the parsed
certificate. -/
theorem check_ca_material_witness :
    (check envNoFile g0 cCA).err = some CheckError.readingRootCert
    ∧ (check envBasic g0 cCA).global.defaultClient.transport.dialTLS
      = some { url := "https://example.com", timeoutNS := 5 * second,
               tlsConfig := { insecureSkipVerify := false,
                              rootCAs := some ["syscert", "cert:PEMDATA"] } } := by
  have h1 := (check_ca_material envNoFile g0 cCA rfl (by decide)).1 rfl
  have h2 := (check_ca_material envBasic g0 cCA rfl (by decide)).2.2 "PEMDATA" rfl (by decide)
  refine ⟨by rw [h1], by rw [h2]; rfl⟩

lemma attemptStep_snd (c : Checker) (o : AttemptOutcome) :
    (attemptStep c o).2 = (decide (0 < c.attemptSpacing) && o.outcome.isResp) := by
  cases ho : o.outcome with
  | err e => simp [attemptStep, ho, TransportOutcome.isResp]
  | resp r => simp [attemptStep, ho, TransportOutcome.isResp]

/-- C7 counterexample: with one configured attempt and a positive
inter-attempt delay, a delay does occur after the final (and only) attempt
when it is transport-successful — the executor does not restrict the sleep
to the space between consecutive attempts. -/
theorem sleep_after_final_attempt :
    0 < cSleep.attemptSpacing
    ∧ (check envBasic g0 cSleep).result.times.length = 1
    ∧ (check envBasic g0 cSleep).sleeps = [true] := by
  refine ⟨by decide, rfl, rfl⟩

/-- C7 (amended): when `Check` completes, a sleep of the configured delay
follows exactly the transport-successful attempts (when the delay is
positive) — including the final attempt; no sleep follows a
transport-failed attempt. -/
theorem check_sleep_policy (env : Env) (g : Global) (c : Checker)
    (herr : (check env g c).err = none)
    (hpanic : (check env g c).panicked = false) :
    (check env g c).sleeps.length = (if c.attempts < 1 then 1 else c.attempts.toNat)
    ∧ (∀ i : Nat, i < (check env g c).sleeps.length →
        (check env g c).sleeps[i]?
          = some (decide (0 < c.attemptSpacing) && (env.outcomes i).outcome.isResp)) := by
  cases hcs : clientSetup env g (normAttempts c) with
  | error e =>
    rw [check_error hcs] at herr
    exact absurd herr (by simp)
  | ok p =>
    obtain ⟨g2, client⟩ := p
    rw [check_ok hcs] at herr hpanic ⊢
    by_cases hv : env.validURL (normStatus { normAttempts c with client := some client }).url = true
    · cases hb : buildRequest (normStatus { normAttempts c with client := some client }) with
      | none =>
        unfold checkRun at hpanic
        rw [if_pos hv, hb] at hpanic
        exact absurd hpanic (by simp)
      | some req =>
        rw [checkRun_ok hv hb]
        have hlen : ((doChecks (normStatus { normAttempts c with client := some client }) env).map
            Prod.snd).length = if c.attempts < 1 then 1 else c.attempts.toNat := by
          rw [List.length_map, doChecks_length, normStatus_attempts]
          show (normAttempts c).attempts.toNat = _
          rw [normAttempts_attempts]
          by_cases ha : c.attempts < 1 <;> simp [ha]
        refine ⟨hlen, fun i hi => ?_⟩
        have hspace : (normStatus { normAttempts c with client := some client }).attemptSpacing
            = c.attemptSpacing := by
          rw [normStatus_spacing]
          show (normAttempts c).attemptSpacing = c.attemptSpacing
          rw [normAttempts_spacing]
        have hi2 : i < (normStatus { normAttempts c with client := some client }).attempts.toNat := by
          have h3 : i < ((doChecks (normStatus { normAttempts c with client := some client })
            env).map Prod.snd).length := hi
          rw [List.length_map, doChecks_length] at h3
          exact h3
        show ((doChecks (normStatus { normAttempts c with client := some client }) env).map
          Prod.snd)[i]? = _
        unfold doChecks
        rw [List.map_map, List.getElem?_map, List.getElem?_range hi2]
        show some ((attemptStep (normStatus { normAttempts c with client := some client })
          (env.outcomes i)).2) = _
        rw [attemptStep_snd, hspace]
    · have hv2 : env.validURL (normStatus { normAttempts c with client := some client }).url = false := by
        revert hv
        cases env.validURL (normStatus { normAttempts c with client := some client }).url <;> simp
      rw [checkRun_badURL hv2] at herr
      exact absurd herr (by simp)

/-- C7 witness: the amended sleep policy at a concrete completed
invocation: one sleep flag, set because the single attempt is
transport-successful and the delay is positive. -/
theorem check_sleep_policy_witness :
    (check envBasic g0 cSleep).sleeps.length = 1
    ∧ (check envBasic g0 cSleep).sleeps[0]? = some true := by
  have h := check_sleep_policy envBasic g0 cSleep rfl rfl
  have hlen : (check envBasic g0 cSleep).sleeps.length = 1 := by simpa using h.1
  refine ⟨hlen, ?_⟩
  have h0 := h.2 0 (by rw [hlen]; decide)
  simpa using h0

/-- C8 counterexample: a configured "Host" header does set the request's
host override, but it is also added to the request's header mapping — the
mapping contains a "Host" entry (the standard library, not this code,
excludes it from the wire). -/
theorem host_header_in_mapping :
    (check envBasic g0 cHost).request
      = some { method := "GET", url := "http://example.com",
               host := some "example.com", header := [("Host", "example.com")] }
    ∧ (Option.map (fun r => (r.header.map Prod.fst).contains "Host")
        (check envBasic g0 cHost).request) = some true :=
  ⟨rfl, rfl⟩

/-- C8 (amended): a configured header whose name lowercases to "host" sets
the request's host override to the header's first value, and the header is
additionally added to the request's header mapping under its canonical key
(the case-insensitive detection governs only the host override; the code
adds the entry to the mapping unconditionally). -/
theorem check_host_header_override (env : Env) (g : Global) (c : Checker)
    (cl : HTTPClient) (k v : String) (vs : List String)
    (hcl : c.client = some cl)
    (hh : c.headers = some [(k, v :: vs)])
    (hk : strToLower k = "host")
    (hu : env.validURL c.url = true) :
    (check env g c).request
      = some { method := "GET", url := c.url, host := some v,
               header := [(canonicalMIMEHeaderKey k, joinComma (v :: vs))] } := by
  have hcl2 : (normAttempts c).client = some cl := by rw [normAttempts_client]; exact hcl
  rw [check_ok (clientSetup_of_some hcl2)]
  have hc2url : (normStatus { normAttempts c with client := some cl }).url = c.url := by
    rw [normStatus_url]
    show (normAttempts c).url = c.url
    rw [normAttempts_url]
  have hc2headers : (normStatus { normAttempts c with client := some cl }).headers
      = some [(k, v :: vs)] := by
    rw [normStatus_headers]
    show (normAttempts c).headers = some [(k, v :: vs)]
    rw [normAttempts_headers]
    exact hh
  have hv : env.validURL (normStatus { normAttempts c with client := some cl }).url = true := by
    rw [hc2url]
    exact hu
  have hreq : buildRequest (normStatus { normAttempts c with client := some cl })
      = some { method := "GET", url := c.url, host := some v,
               header := [(canonicalMIMEHeaderKey k, joinComma (v :: vs))] } := by
    unfold buildRequest
    rw [hc2headers]
    dsimp only
    simp [applyHeaders, applyHeader, hk, hc2url]
  rw [checkRun_ok hv hreq]

/-- C8 witness: the "Host" header of a concrete invocation overrides the
request host and lands in the header mapping under its canonical key. -/
theorem check_host_header_override_witness :
    (check envBasic g0 cHost).request
      = some { method := "GET", url := "http://example.com",
               host := some "example.com",
               header := [(canonicalMIMEHeaderKey "Host", joinComma ["example.com"])] } := by
  have h := check_host_header_override envBasic g0 cHost {} "Host" "example.com" []
    rfl rfl (by decide) rfl
  exact h

/-- C10 counterexample: an invocation with no caller-supplied client whose
CA file read fails aborts before the transport overwrite — the process-wide
default client is left unchanged, so `Check` does not overwrite
`DefaultHTTPClient`'s transport on every such invocation. -/
theorem ca_error_leaves_default_client :
    cCA.client = none
    ∧ (check envNoFile g0 cCA).err.isSome = true
    ∧ (check envNoFile g0 cCA).global = g0
    ∧ (check envNoFile g0 cCA).global.defaultClient.transport.dialTLS = none :=
  ⟨rfl, rfl, rfl, rfl⟩

/-- C10 (amended): when no caller-supplied client is present and the CA
material (if any) loads, `Check` overwrites the shared default client's
transport with a clone carrying the invocation's TLS dialer — mutating the
process-wide state rather than leaving it unchanged (whenever the default
transport had no TLS dialer installed, the state after the call differs). -/
theorem check_mutates_default_client (env : Env) (g : Global) (c : Checker) (tc : TLSConfig)
    (hcl : c.client = none)
    (hok : caTLSConfig env c = .ok tc) :
    (check env g c).global.defaultClient.transport
      = { g.defaultClient.transport with
          dialTLS := some { url := c.url, timeoutNS := 5 * second, tlsConfig := tc } }
    ∧ (g.defaultClient.transport.dialTLS = none → (check env g c).global ≠ g) := by
  have hcl2 : (normAttempts c).client = none := by rw [normAttempts_client]; exact hcl
  have hok2 : caTLSConfig env (normAttempts c) = .ok tc := by
    rw [caTLSConfig_normAttempts]
    exact hok
  have hglobal : (check env g c).global = installDialer g (normAttempts c).url tc := by
    rw [check_ok (clientSetup_none_ok hcl2 hok2), checkRun_global]
  constructor
  · rw [hglobal, normAttempts_url]
    rfl
  · intro hnone heq
    have hd : (check env g c).global.defaultClient.transport.dialTLS
        = g.defaultClient.transport.dialTLS := by rw [heq]
    rw [hglobal, hnone] at hd
    exact Option.noConfusion hd

/-- C10 witness: a concrete invocation with no caller-supplied client and
loadable CA material leaves the default client's transport overwritten with
the invocation's dialer, and the process-wide state changed. -/
theorem check_mutates_default_client_witness :
    (check envBasic g0 cCA).global.defaultClient.transport
      = { g0.defaultClient.transport with
          dialTLS := some
            { url := "https://example.com"
              timeoutNS := 5 * second
              tlsConfig := { insecureSkipVerify := false
                             rootCAs := some ["syscert", "cert:PEMDATA"] } } }
    ∧ (check envBasic g0 cCA).global ≠ g0 := by
  have h := check_mutates_default_client envBasic g0 cCA
    { insecureSkipVerify := false, rootCAs := some ["syscert", "cert:PEMDATA"] } rfl rfl
  refine ⟨?_, h.2 rfl⟩
  rw [h.1]
  rfl

/-- C9 counterexample: a verdict classified down carries an empty notice,
not a non-empty summary. -/
theorem down_verdict_empty_notice :
    (conclude cThresh (freshResult "t" "e" attemptsFail)).down = true
    ∧ (conclude cThresh (freshResult "t" "e" attemptsFail)).notice = "" :=
  ⟨rfl, rfl⟩

/-- C9 witness: for a concrete down verdict, the notice is empty and the
exporter's message names the attempt count. -/
theorem conclude_notice_and_export_witness :
    (conclude cThresh (freshResult "w" "e" attemptsFail)).notice = ""
    ∧ sendMessage (conclude cThresh (freshResult "w" "e" attemptsFail))
      = " - Number of attempts = 1 (5ns)" := by
  have h := conclude_notice_and_export cThresh "w" "e" attemptsFail
  have hd : (conclude cThresh (freshResult "w" "e" attemptsFail)).down = true := rfl
  exact ⟨h.1 hd, by decide⟩

end Checkup
